import Mathlib

/-!
Verification of the SASC phylogeny-inference core of the plastic repository.

The embedding covers:
* the repetition loop of `compute` in `src/phylo/sasc/bindings/sasc-compute.c`
  (best-result selection, error-learning parameter threading),
* the random initial-tree construction of `compute` (both the monoclonal and
  the non-monoclonal branch),
* the final scoring phase producing the expected genotype matrix,
* the Python entry point `sasc` in
  `src/plastic/phylogeny/sasc/bindings/_sasc.pyx`
  (argument defaults, validation, marshalling, and the k / max_deletions
  zero coupling).

Floating-point doubles are embedded as rationals; the annealing search and
the scorer internals (whose C sources are not part of this repository) are
abstracted or modelled from the specification, as noted on each definition.
-/

namespace PlasticSasc

/-! ## Repetition loop of `compute` (sasc-compute.c lines 124-254)

The annealing run of one repetition is abstracted: `anneal r` is the effect
of repetition `r`'s annealing on the error-learning parameter state (the C
code mutates `a_xs`, `g_xs`, `el_params->b_x` in place through `el_params`),
and `score r` is the value `current_lh` computed for repetition `r`'s
resulting tree (sasc-compute.c line 234).  A repetition's resulting tree is
identified by its repetition index. -/

/-- State of the repetition loop of `compute`:
* `best` is the retained best result (`best_tree` / `best_loglike`),
  `none` standing for the initial `best_tree = NULL`,
  `best_loglike = -DBL_MAX` sentinel (exact for finite scores);
* `el` is the error-learning parameter state (`a_xs`, `g_xs`, `b_x`),
  initialised from the externally supplied priors before the loop
  (sasc-compute.c lines 133-148) and mutated in place by `anneal`;
* `entered` records, for bookkeeping, the error-learning state at the
  start of each executed repetition. -/
structure RepState (ElS : Type) where
  best : Option (Nat × ℚ)
  el : ElS
  entered : List ElS
deriving Repr

/-- One iteration of the repetition loop (sasc-compute.c lines 156-254):
run the annealing (which updates the error-learning state), re-score the
resulting tree, and replace the retained best only on a strictly greater
score (`if (current_lh > best_loglike)`, line 237). -/
def repStep {ElS : Type} (anneal : Nat → ElS → ElS) (score : Nat → ℚ)
    (st : RepState ElS) (r : Nat) : RepState ElS :=
  { best :=
      match st.best with
      | none => some (r, score r)
      | some (bi, bs) => if bs < score r then some (r, score r) else some (bi, bs),
    el := anneal r st.el,
    entered := st.entered ++ [st.el] }

/-- The repetition loop of `compute`: `REPETITIONS` iterations of `repStep`
starting from no retained best and the prior-seeded error-learning state
`el0` (sasc-compute.c lines 124-156). -/
def computeReps {ElS : Type} (anneal : Nat → ElS → ElS) (score : Nat → ℚ)
    (el0 : ElS) (reps : Nat) : RepState ElS :=
  (List.range reps).foldl (repStep anneal score) ⟨none, el0, []⟩

/-- The error-learning parameter state at the start of repetition `r`
(equivalently, after the first `r` repetitions have run): the state is
threaded through the loop, each repetition continuing from the state the
previous one left. -/
def elBefore {ElS : Type} (anneal : Nat → ElS → ElS) (el0 : ElS) : Nat → ElS
  | 0 => el0
  | r + 1 => anneal r (elBefore anneal el0 r)

/-- Concrete error-learning behaviour used for the counterexamples: every
repetition moves the (one-dimensional, integer-valued) parameter state up
by one, as a random walk with nonzero variance may. -/
def exAnneal : Nat → ℤ → ℤ := fun _ e => e + 1

/-- Concrete score behaviour used for the counterexamples and witnesses:
repetition 0 scores 10, every later repetition scores 5. -/
def exScore : Nat → ℚ := fun r => if r = 0 then 10 else 5

/-! ## Mutation tree arena (initial tree construction of `compute`)

`compute` builds each repetition's random initial tree into the vector
`ml_tree_vec` (sasc-compute.c lines 159-210): the germline root first, then
the shuffled mutations appended in pairs under successive vector positions.
A node's id equals its position in the vector at creation time
(`vector_total(&ml_tree_vec)`), so the arena below stores nodes by position;
the label (the mutation name) plays no role in any claim and is omitted. -/

/-- One tree node as built by `node_new`: the mutation column it represents
(`-1` for the germline root), its loss flag (`node_new` is always called
with loss 0 here; loss nodes only appear through annealing moves), and the
arena position of its parent (`node_append`). -/
structure TNode where
  mutIndex : Int
  loss : Bool
  parent : Option Nat
deriving DecidableEq, Repr

/-- The germline root (`node_new("germline", -1, 0)`, sasc-compute.c
line 165). -/
def germline : TNode := { mutIndex := -1, loss := false, parent := none }

/-- The pair-appending loop of the initial tree construction
(sasc-compute.c lines 176-188 and 197-209): while `i < M`, append the node
for mutation `rantree[i]` under arena position `app`, and, if `i+1 < M`,
also the node for `rantree[i+1]` under the same position; then advance
`app` by one and `i` by two.  `fuel` only bounds the recursion; `fuel = M`
is enough since `i` grows by two per iteration.  Out-of-range reads of
`rantree` (which in C are reads past the end of a stack array) yield the
default value 0. -/
def buildLoop (rantree : List Nat) (M : Nat) : Nat → Nat → Nat → List TNode → List TNode
  | 0, _, _, arena => arena
  | fuel + 1, app, i, arena =>
    if i < M then
      let arena1 := arena ++ [{ mutIndex := (rantree.getD i 0 : Int), loss := false, parent := some app }]
      let arena2 :=
        if i + 1 < M then
          arena1 ++ [{ mutIndex := (rantree.getD (i + 1) 0 : Int), loss := false, parent := some app }]
        else arena1
      buildLoop rantree M fuel (app + 1) (i + 2) arena2
    else arena

/-- The random initial tree of one repetition (sasc-compute.c lines
165-210), given the shuffled mutation order `rantree`.  In the monoclonal
branch the node for `rantree[0]` is appended under the germline
unconditionally - also when `M = 0`, where the C code reads `rantree[0]`
out of bounds - and the pair loop then starts from `app = 1`, `i = 1`;
otherwise the pair loop starts from `app = 0`, `i = 0`. -/
def initialTree (M : Nat) (rantree : List Nat) (monoclonal : Bool) : List TNode :=
  if monoclonal then
    buildLoop rantree M M 1 1
      [germline, { mutIndex := (rantree.getD 0 0 : Int), loss := false, parent := some 0 }]
  else
    buildLoop rantree M M 0 0 [germline]

/-- Number of loss-flagged nodes in the whole tree. -/
def lossCount (t : List TNode) : Nat := t.countP (fun nd => nd.loss)

/-- Number of children of the node at arena position `p`. -/
def childCount (t : List TNode) (p : Nat) : Nat :=
  t.countP (fun nd => nd.parent = some p)

/-- Parent position of the node at position `i`, if any. -/
def parentOf (t : List TNode) (i : Nat) : Option Nat := (t.get? i).bind (fun nd => nd.parent)

/-- Mutation index of the node at position `i` (`-1` when out of range). -/
def mutOf (t : List TNode) (i : Nat) : Int := ((t.get? i).map (fun nd => nd.mutIndex)).getD (-1)

/-- Loss flag of the node at position `i` (`false` when out of range). -/
def lossOf (t : List TNode) (i : Nat) : Bool := ((t.get? i).map (fun nd => nd.loss)).getD false

/-- The node positions on the path from node `i` up to the root, nearest
first.  `fuel` bounds the parent walk; `t.length` steps always suffice on
an acyclic arena. -/
def pathToRoot (t : List TNode) : Nat → Nat → List Nat
  | 0, i => [i]
  | fuel + 1, i =>
    i ::
      (match parentOf t i with
       | none => []
       | some p => pathToRoot t fuel p)

/-- Modelled from the spec: `get_genotype_profile` (tree.c of the sasc
submodule, not under src/).  Spec 4.1: the genotype profile of a node is
the vector over all `M` mutations obtained by folding gain/loss events
along the root-to-node path - default absent (0); a gain sets present (1);
a subsequent loss along the same path sets absent again.  The governing
event for mutation `j` is therefore the one nearest to the node, i.e. the
first on the node-to-root walk. -/
def genotypeProfile (t : List TNode) (M : Nat) (v : Nat) : List Int :=
  (List.range M).map (fun j =>
    match (pathToRoot t t.length v).find? (fun i => mutOf t i = (j : Int)) with
    | some i => if lossOf t i then 0 else 1
    | none => 0)

/-- Number of loss nodes for mutation `j` on the root-to-node path of
node `v`. -/
def pathLossCount (t : List TNode) (v j : Nat) : Nat :=
  ((pathToRoot t t.length v).filter (fun i => lossOf t i && decide (mutOf t i = (j : Int)))).length

/-- The k-Dollo per-path constraint: on every root-to-node path, every
mutation has at most `k` loss nodes (spec 3, spec 4.4). -/
def kDolloOk (M : Nat) (k : Int) (t : List TNode) : Bool :=
  (List.range t.length).all (fun v =>
    (List.range M).all (fun j => decide ((pathLossCount t v j : Int) ≤ k)))

/-- Modelled from the spec: the tree invariants the annealing search
enforces (spec 4.4, spec 8) - total loss count at most `max_deletions`,
the k-Dollo per-path cap, and, when the monoclonal flag is set, exactly
one child of the germline root. -/
def validTree (M : Nat) (k maxDel : Int) (monoclonal : Bool) (t : List TNode) : Bool :=
  decide ((lossCount t : Int) ≤ maxDel) && kDolloOk M k t
    && (!monoclonal || decide (childCount t 0 = 1))

/-- Modelled from the spec: one step of `anneal` (sastep.c of the sasc
submodule, not under src/).  Spec 4.4: a proposed move that violates the
k-Dollo, deletion-budget, or monoclonal invariant is never evaluated - it
is discarded before scoring - so the working tree changes only to proposals
satisfying `validTree`.  The proposal itself is abstracted as an arbitrary
tree transformer. -/
def annealStep (M : Nat) (k maxDel : Int) (monoclonal : Bool)
    (t : List TNode) (f : List TNode → List TNode) : List TNode :=
  if validTree M k maxDel monoclonal (f t) then f t else t

/-- Modelled from the spec: the sequence of trees the annealing search
scores - the initial tree followed by the working tree after each proposed
move (accepted proposals replace the tree, invalid ones leave it
unchanged). -/
def annealTrees (M : Nat) (k maxDel : Int) (monoclonal : Bool)
    (init : List TNode) : List (List TNode → List TNode) → List (List TNode)
  | [] => [init]
  | f :: fs =>
    init :: annealTrees M k maxDel monoclonal (annealStep M k maxDel monoclonal init f) fs

/-! ## Final scoring phase of `compute` (sasc-compute.c lines 256-286) -/

/-- Modelled from the spec: the per-cell attachment of
`greedy_tree_loglikelihood` (sastep.c of the sasc submodule, not under
src/).  Spec 4.2: for every cell independently, pick the tree node
maximising the cell's total log-likelihood, ties broken by lowest node id.
The per-(cell, node) log-likelihood is abstracted as the table `L`, since
its value is a sum of floating-point logarithms. -/
def scorerSigma (L : Nat → Nat → ℚ) (numNodes i : Nat) : Nat :=
  (List.range numNodes).foldl (fun b v => if L i b < L i v then v else b) 0

/-- Modelled from the spec: the total score of `greedy_tree_loglikelihood`
- the sum over the cells of the per-cell maxima (spec 4.2). -/
def scorerScore (L : Nat → Nat → ℚ) (numNodes N : Nat) : ℚ :=
  ((List.range N).map (fun i => L i (scorerSigma L numNodes i))).sum

/-- Output of the final phase of `compute`: the score and attachment of the
one extra scoring call on the retained best tree, and the expected genotype
matrix. -/
structure FinalOut where
  score : ℚ
  sigma : List Nat
  gtp : List (List Int)
deriving Repr

/-- The final phase of `compute` (sasc-compute.c lines 256-275): score the
retained best tree once more, obtaining `best_sigma`, then fill row `i` of
`gtp_matrix` with the genotype profile of the node `best_sigma[i]` attaches
cell `i` to (the per-row buffer `gtpo` is zeroed before each row, so each
row is exactly the profile). -/
def computeFinal (t : List TNode) (M N : Nat) (L : Nat → Nat → ℚ) : FinalOut :=
  let sigma := (List.range N).map (scorerSigma L t.length)
  { score := scorerScore L t.length N,
    sigma := sigma,
    gtp := sigma.map (fun v => genotypeProfile t M v) }

/-! ## The Python entry point `sasc`
(src/plastic/phylogeny/sasc/bindings/_sasc.pyx) -/

/-- A Python argument that is either a single float or a list of floats
(the `alphas` / `gammas` parameters). -/
inductive FloatList where
  | scalar (x : ℚ)
  | list (xs : List ℚ)
deriving DecidableEq, Repr

/-- The broadcast step of `sasc` (_sasc.pyx lines 153-158): a scalar is
replicated to one value per mutation, a list is left as is. -/
def broadcastFL (fl : FloatList) (M : Nat) : List ℚ :=
  match fl with
  | FloatList.scalar x => List.replicate M x
  | FloatList.list xs => xs

/-- Whether `fl` is a scalar (`not isinstance(alphas, list)`). -/
def isScalarFL (fl : FloatList) : Bool :=
  match fl with
  | FloatList.scalar _ => true
  | FloatList.list _ => false

/-- The arguments of the `sasc` entry point.  `N` and `M` are the input
matrix's shape (the matrix entries themselves are consumed only by the
abstracted scorer and are not needed here); numeric Python arguments are
rationals, since Python numbers may be non-integral. -/
structure SascArgs where
  N : Nat
  M : Nat
  alphas : FloatList
  beta : ℚ
  k : ℚ
  maxDeletions : ℚ
  repetitions : ℚ
  startTemp : ℚ
  cores : ℚ
  elA : ℚ
  elB : ℚ
  elG : ℚ
  monoclonal : Bool
  gammas : FloatList
  getCells : Bool
  coolingRate : ℚ
deriving DecidableEq, Repr

/-- A `sasc` call in which every optional parameter keeps the default of
the signature (_sasc.pyx lines 44-60): `max_deletions = INT_MAX`,
`repetitions = 5`, `start_temp = 10**4`, `cores = 1`, the three
error-learning variances 0, `monoclonal = False`, `gammas = 1`,
`get_cells = False`, `cooling_rate = 0.01`. -/
def sascDefaultArgs (N M : Nat) (alphas : FloatList) (beta k : ℚ) : SascArgs :=
  { N := N, M := M, alphas := alphas, beta := beta, k := k,
    maxDeletions := 2147483647, repetitions := 5, startTemp := 10000,
    cores := 1, elA := 0, elB := 0, elG := 0, monoclonal := false,
    gammas := FloatList.scalar 1, getCells := false, coolingRate := 1 / 100 }

/-- The validation failures `sasc` reports as `ValueError`, one constructor
per `raise` site of _sasc.pyx lines 135-166. -/
inductive VErr where
  | betaRange
  | elVarNeg
  | kNotNat
  | maxDelNotNat
  | repsNotPos
  | startTempNeg
  | coolingNotPos
  | coresNotPos
  | alphasLen
  | gammasLen
  | alphasRange
  | gammasRange
deriving DecidableEq, Repr

/-- Python `int(q) == q`: the number is integral. -/
def ratIsInt (q : ℚ) : Bool := q.den = 1

/-- Truncation of an (integral) rational to an integer, as Cython's
assignment of a validated Python number to a C `int` field. -/
def ratTrunc (q : ℚ) : Int := q.num / (q.den : Int)

/-- The input validation of `sasc` (_sasc.pyx lines 135-166), in source
order: the first failing check raises `ValueError`.  The range checks on
`alphas` / `gammas` run on the broadcast per-mutation vectors. -/
def sascCheck (a : SascArgs) : Option VErr :=
  if a.beta < 0 ∨ 1 < a.beta then some VErr.betaRange
  else if a.elA < 0 ∨ a.elB < 0 ∨ a.elG < 0 then some VErr.elVarNeg
  else if ¬ ratIsInt a.k = true ∨ a.k < 0 then some VErr.kNotNat
  else if ¬ ratIsInt a.maxDeletions = true ∨ a.maxDeletions < 0 then some VErr.maxDelNotNat
  else if ¬ ratIsInt a.repetitions = true ∨ a.repetitions < 1 then some VErr.repsNotPos
  else if a.startTemp < 0 then some VErr.startTempNeg
  else if a.coolingRate ≤ 0 then some VErr.coolingNotPos
  else if ¬ ratIsInt a.cores = true ∨ a.cores < 1 then some VErr.coresNotPos
  else if (broadcastFL a.alphas a.M).length ≠ a.M then some VErr.alphasLen
  else if (broadcastFL a.gammas a.M).length ≠ a.M then some VErr.gammasLen
  else if (broadcastFL a.alphas a.M).any (fun x => decide (x < 0 ∨ 1 < x)) then some VErr.alphasRange
  else if (broadcastFL a.gammas a.M).any (fun x => decide (x < 0 ∨ 1 < x)) then some VErr.gammasRange
  else none

/-- The argument structure handed to the C `compute` (`sasc_in_t`,
marshalled in _sasc.pyx lines 168-220). -/
structure CoreArgs where
  N : Nat
  M : Nat
  alphas : List ℚ
  gammas : List ℚ
  beta : ℚ
  k : Int
  maxDeletions : Int
  repetitions : Int
  startTemp : ℚ
  coolingRate : ℚ
  cores : Int
  singleAlpha : Bool
  singleGamma : Bool
  monoclonal : Bool
  elA : ℚ
  elB : ℚ
  elG : ℚ
deriving DecidableEq, Repr

/-- The marshalling of validated `sasc` arguments into `sasc_in_t`
(_sasc.pyx lines 168-220), including the coupling of lines 176-178: if
`k == 0 or max_deletions == 0`, both are set to 0 before being stored. -/
def coreOf (a : SascArgs) : CoreArgs :=
  let kForced : ℚ := if a.k = 0 ∨ a.maxDeletions = 0 then 0 else a.k
  let mdForced : ℚ := if a.k = 0 ∨ a.maxDeletions = 0 then 0 else a.maxDeletions
  { N := a.N, M := a.M,
    alphas := broadcastFL a.alphas a.M,
    gammas := broadcastFL a.gammas a.M,
    beta := a.beta,
    k := ratTrunc kForced,
    maxDeletions := ratTrunc mdForced,
    repetitions := ratTrunc a.repetitions,
    startTemp := a.startTemp,
    coolingRate := a.coolingRate,
    cores := ratTrunc a.cores,
    singleAlpha := isScalarFL a.alphas,
    singleGamma := isScalarFL a.gammas,
    monoclonal := a.monoclonal,
    elA := a.elA, elB := a.elB, elG := a.elG }

/-- The `sasc` entry point up to the invocation of the C core: validate,
then marshal; `Except.error` is a raised `ValueError` (the C `compute` is
never reached), `Except.ok` carries exactly what `compute` receives. -/
def sascRun (a : SascArgs) : Except VErr CoreArgs :=
  match sascCheck a with
  | some e => Except.error e
  | none => Except.ok (coreOf a)

/-! ## Concrete instances used by witnesses and counterexamples -/

/-- A concrete invalid `sasc` call: `beta = 2` is outside `[0, 1]`. -/
def aExBad : SascArgs :=
  { N := 1, M := 1, alphas := FloatList.scalar 1, beta := 2, k := 1,
    maxDeletions := 1, repetitions := 1, startTemp := 1, cores := 1,
    elA := 0, elB := 0, elG := 0, monoclonal := false,
    gammas := FloatList.scalar 1, getCells := false, coolingRate := 1 }

/-- A concrete valid `sasc` call with `k = 0` and a nonzero
`max_deletions`. -/
def aExC5 : SascArgs :=
  { N := 1, M := 1, alphas := FloatList.scalar 1, beta := 1, k := 0,
    maxDeletions := 7, repetitions := 1, startTemp := 1, cores := 1,
    elA := 0, elB := 0, elG := 0, monoclonal := false,
    gammas := FloatList.scalar 1, getCells := false, coolingRate := 1 }

/-- The core arguments produced for `aExC5`. -/
def cExC5 : CoreArgs := coreOf aExC5

/-- The initial tree of the run for `aExC5` with shuffle order `[0]`. -/
def tExC5 : List TNode := initialTree cExC5.M [0] cExC5.monoclonal

/-- A concrete valid `sasc` call with `max_deletions = 0` and a nonzero
`k`. -/
def aExC10 : SascArgs :=
  { N := 1, M := 1, alphas := FloatList.scalar 1, beta := 1, k := 3,
    maxDeletions := 0, repetitions := 1, startTemp := 1, cores := 1,
    elA := 0, elB := 0, elG := 0, monoclonal := false,
    gammas := FloatList.scalar 1, getCells := false, coolingRate := 1 }

/-- The core arguments produced for `aExC10`. -/
def cExC10 : CoreArgs := coreOf aExC10

/-- The core arguments produced for a `sasc` call with all optional
parameters at their defaults (`N = M = 1`, `alphas = 1`, `beta = 1`,
`k = 1`). -/
def cExDef : CoreArgs := coreOf (sascDefaultArgs 1 1 (FloatList.scalar 1) 1 1)

/-- The core arguments produced for a `sasc` call with all optional
parameters at their defaults and the required argument `k = 0`. -/
def cExDef0 : CoreArgs := coreOf (sascDefaultArgs 1 1 (FloatList.scalar 1) 1 0)

/-- A concrete monoclonal initial tree with one mutation. -/
def tExC6 : List TNode := initialTree 1 [0] true

/-- A concrete two-mutation non-monoclonal initial tree. -/
def tExC4 : List TNode := initialTree 2 [0, 1] false

/-- A concrete constant per-(cell, node) log-likelihood table. -/
def lExC4 : Nat → Nat → ℚ := fun _ _ => 0

end PlasticSasc

namespace PlasticSasc

/-! Auxiliary lemmas about the repetition loop. -/

theorem computeReps_zero {ElS : Type} (anneal : Nat → ElS → ElS) (score : Nat → ℚ)
    (el0 : ElS) : computeReps anneal score el0 0 = ⟨none, el0, []⟩ := rfl

theorem computeReps_succ {ElS : Type} (anneal : Nat → ElS → ElS) (score : Nat → ℚ)
    (el0 : ElS) (n : Nat) :
    computeReps anneal score el0 (n + 1)
      = repStep anneal score (computeReps anneal score el0 n) n := by
  unfold computeReps
  rw [List.range_succ, List.foldl_append]
  rfl

theorem computeReps_el {ElS : Type} (anneal : Nat → ElS → ElS) (score : Nat → ℚ)
    (el0 : ElS) (reps : Nat) :
    (computeReps anneal score el0 reps).el = elBefore anneal el0 reps := by
  induction reps with
  | zero => rfl
  | succ n ih =>
      rw [computeReps_succ]
      simp [repStep, elBefore, ih]

theorem computeReps_entered_length {ElS : Type} (anneal : Nat → ElS → ElS)
    (score : Nat → ℚ) (el0 : ElS) (reps : Nat) :
    (computeReps anneal score el0 reps).entered.length = reps := by
  induction reps with
  | zero => rfl
  | succ n ih =>
      rw [computeReps_succ]
      simp [repStep, ih]

/-- C1: the repetition loop of `compute` runs the annealing search exactly
`repetitions` times and retains the single best-scoring result; a later
repetition replaces the retained best only on a strictly greater score, so
on a tie the first-found result is kept: the retained result is the
repetition with the unique first-occurring maximal score. -/
theorem compute_runs_reps_and_keeps_first_best {ElS : Type}
    (anneal : Nat → ElS → ElS) (score : Nat → ℚ) (el0 : ElS) (reps : Nat)
    (h : 1 ≤ reps) :
    (computeReps anneal score el0 reps).entered.length = reps ∧
    ∃ i, i < reps ∧ (computeReps anneal score el0 reps).best = some (i, score i) ∧
      (∀ j, j < reps → score j ≤ score i) ∧ (∀ j, j < i → score j < score i) := by
  refine ⟨computeReps_entered_length anneal score el0 reps, ?_⟩
  induction reps, h using Nat.le_induction with
  | base =>
      refine ⟨0, Nat.zero_lt_one, ?_, ?_, ?_⟩
      · rw [computeReps_succ, computeReps_zero]
        rfl
      · intro j hj
        have : j = 0 := Nat.lt_one_iff.mp hj
        simp [this]
      · intro j hj
        exact absurd hj (Nat.not_lt_zero j)
  | succ n hn ih =>
      obtain ⟨i, hi, hbest, hle, hlt⟩ := ih
      by_cases hc : score i < score n
      · refine ⟨n, Nat.lt_succ_self n, ?_, ?_, ?_⟩
        · rw [computeReps_succ]
          simp [repStep, hbest, hc]
        · intro j hj
          rcases Nat.lt_succ_iff_lt_or_eq.mp hj with hj | hj
          · exact (hle j hj).trans hc.le
          · simp [hj]
        · intro j hj
          exact lt_of_le_of_lt (hle j hj) hc
      · refine ⟨i, hi.trans (Nat.lt_succ_self n), ?_, ?_, ?_⟩
        · rw [computeReps_succ]
          simp [repStep, hbest, hc]
        · intro j hj
          rcases Nat.lt_succ_iff_lt_or_eq.mp hj with hj | hj
          · exact hle j hj
          · rw [hj]
            exact not_lt.mp hc
        · exact hlt

/-- C1 witness: the theorem applied to a concrete two-repetition run. -/
theorem compute_runs_reps_and_keeps_first_best_witness :
    (computeReps exAnneal exScore (0 : ℤ) 2).entered.length = 2 ∧
    ∃ i, i < 2 ∧ (computeReps exAnneal exScore (0 : ℤ) 2).best = some (i, exScore i) ∧
      (∀ j, j < 2 → exScore j ≤ exScore i) ∧ (∀ j, j < i → exScore j < exScore i) :=
  compute_runs_reps_and_keeps_first_best exAnneal exScore 0 2 (by decide)

/-- C2 counterexample: in a two-repetition run where the first repetition
scores best (10 against 5) and the error-learning state moves from 0 to 1
to 2, `compute` returns the final state 2, not the state 1 under which the
retained best tree obtained its score. -/
theorem el_output_not_best_run_state :
    (computeReps exAnneal exScore (0 : ℤ) 2).best = some (0, 10) ∧
    (computeReps exAnneal exScore (0 : ℤ) 2).el ≠ elBefore exAnneal (0 : ℤ) (0 + 1) := by
  constructor
  · rfl
  · decide

/-- C2 amended: the learned error-parameter values returned by `compute`
are the error-learning state left by the last repetition (the random walk
continues across repetitions and is never snapshotted at the best run). -/
theorem el_output_is_final_state {ElS : Type} (anneal : Nat → ElS → ElS)
    (score : Nat → ℚ) (el0 : ElS) (reps : Nat) :
    (computeReps anneal score el0 reps).el = elBefore anneal el0 reps :=
  computeReps_el anneal score el0 reps

/-- C3 counterexample: with priors 0 and an error-learning walk that adds
one per repetition, the second repetition starts from state 1, not from the
externally supplied prior state 0. -/
theorem rep_start_state_not_reseeded :
    (computeReps exAnneal exScore (0 : ℤ) 2).entered[1]? = some 1 ∧ (1 : ℤ) ≠ 0 := by
  constructor
  · rfl
  · decide

/-- C3 amended: the error-learning state is seeded from the externally
supplied priors once, before the first repetition; repetition `r` then
starts from the state the previous repetitions left (`elBefore r`), which
is the prior state only for `r = 0`. -/
theorem rep_start_state_is_previous_final {ElS : Type} (anneal : Nat → ElS → ElS)
    (score : Nat → ℚ) (el0 : ElS) (reps r : Nat) (h : r < reps) :
    (computeReps anneal score el0 reps).entered[r]? = some (elBefore anneal el0 r) := by
  induction reps with
  | zero => exact absurd h (Nat.not_lt_zero r)
  | succ n ih =>
      rw [computeReps_succ]
      show ((computeReps anneal score el0 n).entered
          ++ [(computeReps anneal score el0 n).el])[r]? = some (elBefore anneal el0 r)
      rcases Nat.lt_succ_iff_lt_or_eq.mp h with hr | hr
      · rw [List.getElem?_append_left]
        · exact ih hr
        · rw [computeReps_entered_length]
          exact hr
      · subst hr
        have hlen : (computeReps anneal score el0 r).entered.length = r :=
          computeReps_entered_length anneal score el0 r
        have hc := List.getElem?_concat_length
          (computeReps anneal score el0 r).entered (computeReps anneal score el0 r).el
        rw [hlen] at hc
        rw [hc, computeReps_el]

/-- C3 amended witness: the amended theorem applied to the concrete
two-repetition run at repetition index 1. -/
theorem rep_start_state_is_previous_final_witness :
    (computeReps exAnneal exScore (0 : ℤ) 2).entered[1]?
      = some (elBefore exAnneal (0 : ℤ) 1) :=
  rep_start_state_is_previous_final exAnneal exScore 0 2 1 (by decide)

/-! ## Lemmas about the initial tree construction and the modelled
annealing invariants -/

theorem lossCount_append (l1 l2 : List TNode) :
    lossCount (l1 ++ l2) = lossCount l1 + lossCount l2 :=
  List.countP_append _ l1 l2

theorem lossCount_buildLoop (rantree : List Nat) (M : Nat) :
    ∀ fuel app i arena,
      lossCount (buildLoop rantree M fuel app i arena) = lossCount arena := by
  intro fuel
  induction fuel with
  | zero => intro app i arena; rfl
  | succ f ih =>
      intro app i arena
      unfold buildLoop
      by_cases hi : i < M
      · simp only [hi, if_true]
        by_cases hi2 : i + 1 < M
        · simp only [hi2, if_true, ih, lossCount_append]
          simp [lossCount]
        · simp only [hi2, if_false, ih, lossCount_append]
          simp [lossCount]
      · simp [hi]

theorem childCount_append (l1 l2 : List TNode) (p : Nat) :
    childCount (l1 ++ l2) p = childCount l1 p + childCount l2 p :=
  List.countP_append _ l1 l2

theorem childCount_buildLoop (rantree : List Nat) (M : Nat) :
    ∀ fuel app i arena, 1 ≤ app →
      childCount (buildLoop rantree M fuel app i arena) 0 = childCount arena 0 := by
  intro fuel
  induction fuel with
  | zero => intro app i arena _; rfl
  | succ f ih =>
      intro app i arena happ
      have happ0 : ¬ ((some app : Option Nat) = some 0) := by
        simp only [Option.some.injEq]
        omega
      unfold buildLoop
      by_cases hi : i < M
      · simp only [hi, if_true]
        by_cases hi2 : i + 1 < M
        · simp only [hi2, if_true, ih _ _ _ (happ.trans (Nat.le_succ app)), childCount_append]
          simp [childCount, happ0]
        · simp only [hi2, if_false, ih _ _ _ (happ.trans (Nat.le_succ app)), childCount_append]
          simp [childCount, happ0]
      · simp [hi]

theorem lossCount_initialTree (M : Nat) (rantree : List Nat) (monoclonal : Bool) :
    lossCount (initialTree M rantree monoclonal) = 0 := by
  cases monoclonal with
  | false =>
      unfold initialTree
      simp only [Bool.false_eq_true, if_false, lossCount_buildLoop]
      simp [lossCount, germline]
  | true =>
      unfold initialTree
      simp only [if_true, lossCount_buildLoop]
      simp [lossCount, germline]

theorem childCount_initialTree_monoclonal (M : Nat) (rantree : List Nat) :
    childCount (initialTree M rantree true) 0 = 1 := by
  unfold initialTree
  simp only [if_true]
  rw [childCount_buildLoop rantree M M 1 1 _ (le_refl 1)]
  simp [childCount, germline]

theorem validTree_lossBound {M : Nat} {k maxDel : Int} {monoclonal : Bool} {t : List TNode}
    (h : validTree M k maxDel monoclonal t = true) : (lossCount t : Int) ≤ maxDel := by
  unfold validTree at h
  simp only [Bool.and_eq_true, decide_eq_true_eq] at h
  exact h.1.1

theorem validTree_monoChild {M : Nat} {k maxDel : Int} {t : List TNode}
    (h : validTree M k maxDel true t = true) : childCount t 0 = 1 := by
  unfold validTree at h
  simp only [Bool.not_true, Bool.false_or, Bool.and_eq_true, decide_eq_true_eq] at h
  exact h.2

theorem annealTrees_mem_lossZero (M : Nat) (k : Int) (monoclonal : Bool) :
    ∀ (moves : List (List TNode → List TNode)) (init t : List TNode),
      lossCount init = 0 →
      t ∈ annealTrees M k 0 monoclonal init moves → lossCount t = 0 := by
  intro moves
  induction moves with
  | nil =>
      intro init t h0 ht
      rw [annealTrees, List.mem_singleton] at ht
      rw [ht]
      exact h0
  | cons f fs ih =>
      intro init t h0 ht
      rw [annealTrees, List.mem_cons] at ht
      rcases ht with rfl | ht
      · exact h0
      · refine ih _ t ?_ ht
        unfold annealStep
        by_cases hv : validTree M k 0 monoclonal (f init) = true
        · rw [if_pos hv]
          have hb := validTree_lossBound hv
          omega
        · rw [if_neg hv]
          exact h0

theorem annealTrees_mem_monoChild (M : Nat) (k maxDel : Int) :
    ∀ (moves : List (List TNode → List TNode)) (init t : List TNode),
      childCount init 0 = 1 →
      t ∈ annealTrees M k maxDel true init moves → childCount t 0 = 1 := by
  intro moves
  induction moves with
  | nil =>
      intro init t h0 ht
      rw [annealTrees, List.mem_singleton] at ht
      rw [ht]
      exact h0
  | cons f fs ih =>
      intro init t h0 ht
      rw [annealTrees, List.mem_cons] at ht
      rcases ht with rfl | ht
      · exact h0
      · refine ih _ t ?_ ht
        unfold annealStep
        by_cases hv : validTree M k maxDel true (f init) = true
        · rw [if_pos hv]
          exact validTree_monoChild hv
        · rw [if_neg hv]
          exact h0

/-! ## Lemmas about the `sasc` entry point -/

theorem sascRun_ok {a : SascArgs} {c : CoreArgs}
    (h : sascRun a = Except.ok c) : c = coreOf a := by
  unfold sascRun at h
  cases hc : sascCheck a with
  | some e =>
      rw [hc] at h
      exact absurd h (by simp)
  | none =>
      rw [hc] at h
      exact (Except.ok.inj h).symm

theorem coreOf_zero_coupling {a : SascArgs} (h : a.k = 0 ∨ a.maxDeletions = 0) :
    (coreOf a).k = 0 ∧ (coreOf a).maxDeletions = 0 := by
  unfold coreOf
  simp only [if_pos h]
  constructor <;> rfl

/-- C5: with `k = 0` the inferred tree contains only gain nodes, whatever
`max_deletions` the caller supplied: the entry point forces
`max_deletions = 0` at the core boundary, and the (spec-modelled) annealing
guard then never accepts a tree with a loss node, so every tree the search
ever holds - the initial one included - has loss count 0. -/
theorem k_zero_only_gain_nodes (a : SascArgs) (hk : a.k = 0) (c : CoreArgs)
    (hok : sascRun a = Except.ok c) (rantree : List Nat)
    (moves : List (List TNode → List TNode)) (t : List TNode)
    (ht : t ∈ annealTrees c.M c.k c.maxDeletions c.monoclonal
        (initialTree c.M rantree c.monoclonal) moves) :
    lossCount t = 0 := by
  have hc := sascRun_ok hok
  subst hc
  have h0 := coreOf_zero_coupling (Or.inl hk)
  rw [h0.2] at ht
  exact annealTrees_mem_lossZero _ _ _ moves _ t
    (lossCount_initialTree (coreOf a).M rantree (coreOf a).monoclonal) ht

/-- C5 witness: the theorem applied to a concrete call with `k = 0`,
`max_deletions = 7` and an empty move sequence. -/
theorem k_zero_only_gain_nodes_witness :
    aExC5.k = 0 ∧ sascRun aExC5 = Except.ok cExC5 ∧
    tExC5 ∈ annealTrees cExC5.M cExC5.k cExC5.maxDeletions cExC5.monoclonal
      (initialTree cExC5.M [0] cExC5.monoclonal) [] ∧
    lossCount tExC5 = 0 := by
  have hrun : sascRun aExC5 = Except.ok cExC5 := rfl
  have hmem : tExC5 ∈ annealTrees cExC5.M cExC5.k cExC5.maxDeletions cExC5.monoclonal
      (initialTree cExC5.M [0] cExC5.monoclonal) [] := List.mem_singleton.mpr rfl
  exact ⟨rfl, hrun, hmem, k_zero_only_gain_nodes aExC5 rfl cExC5 hrun [0] [] tExC5 hmem⟩

/-- C6: with the monoclonal flag set, the germline root has exactly one
child in every tree the search ever scores - the randomly generated
initial tree of a repetition (any shuffle order `rantree`, any `M ≥ 1`)
and every working tree reached through the (spec-modelled) guarded
annealing moves. -/
theorem monoclonal_root_single_child (M : Nat) (hM : 1 ≤ M) (rantree : List Nat)
    (k maxDel : Int) (moves : List (List TNode → List TNode)) (t : List TNode)
    (ht : t ∈ annealTrees M k maxDel true (initialTree M rantree true) moves) :
    childCount t 0 = 1 :=
  annealTrees_mem_monoChild M k maxDel moves _ t
    (childCount_initialTree_monoclonal M rantree) ht

/-- C6 witness: the theorem applied to the concrete one-mutation
monoclonal initial tree with an empty move sequence. -/
theorem monoclonal_root_single_child_witness :
    1 ≤ 1 ∧ tExC6 ∈ annealTrees 1 0 0 true (initialTree 1 [0] true) [] ∧
    childCount tExC6 0 = 1 := by
  have hmem : tExC6 ∈ annealTrees 1 0 0 true (initialTree 1 [0] true) [] :=
    List.mem_singleton.mpr rfl
  exact ⟨le_refl 1, hmem,
    monoclonal_root_single_child 1 (le_refl 1) [0] 0 0 [] tExC6 hmem⟩

/-- C8: evaluation at the failing degenerate input.  With `M = 0` the
non-monoclonal branch builds the germline-only tree the spec promises, but
the monoclonal branch of `compute` unconditionally appends a first-clone
node read from the empty `rantree` array under the germline (an
out-of-bounds read in the C code), so the resulting tree has two nodes and
is not germline-only. -/
theorem degenerate_monoclonal_extra_node :
    (initialTree 0 [] false).length = 1 ∧
    (initialTree 0 [] true).length = 2 ∧
    childCount (initialTree 0 [] true) 0 = 1 := by
  decide

/-- C4: after the repetition loop, the retained best tree is scored once
more - the one scorer application produces the output score and attachment
together - and row `i` of the output expected genotype matrix is exactly
the genotype profile of the tree node that the resulting attachment
assigns to cell `i`. -/
theorem gtp_rows_are_attached_profiles (t : List TNode) (M N : Nat)
    (L : Nat → Nat → ℚ) (i : Nat) (h : i < N) :
    (computeFinal t M N L).gtp[i]?
      = some (genotypeProfile t M (scorerSigma L t.length i)) := by
  unfold computeFinal
  simp [List.getElem?_map, List.getElem?_range, h]

/-- C4 witness: the theorem applied to a concrete two-mutation tree, one
cell and a constant likelihood table. -/
theorem gtp_rows_are_attached_profiles_witness :
    0 < 1 ∧ (computeFinal tExC4 2 1 lExC4).gtp[0]?
      = some (genotypeProfile tExC4 2 (scorerSigma lExC4 tExC4.length 0)) :=
  ⟨Nat.zero_lt_one, gtp_rows_are_attached_profiles tExC4 2 1 lExC4 0 Nat.zero_lt_one⟩

/-- Everything a passed validation guarantees: if `sascCheck` reports no
error, every check of _sasc.pyx lines 135-166 succeeded. -/
theorem sascCheck_none_sound {a : SascArgs} (h : sascCheck a = none) :
    (0 ≤ a.beta ∧ a.beta ≤ 1) ∧
    (ratIsInt a.k = true ∧ 0 ≤ a.k) ∧
    (ratIsInt a.maxDeletions = true ∧ 0 ≤ a.maxDeletions) ∧
    (ratIsInt a.repetitions = true ∧ 1 ≤ a.repetitions) ∧
    0 < a.coolingRate ∧
    (ratIsInt a.cores = true ∧ 1 ≤ a.cores) ∧
    (broadcastFL a.alphas a.M).length = a.M ∧
    (broadcastFL a.gammas a.M).length = a.M ∧
    (∀ x ∈ broadcastFL a.alphas a.M, 0 ≤ x ∧ x ≤ 1) ∧
    (∀ x ∈ broadcastFL a.gammas a.M, 0 ≤ x ∧ x ≤ 1) := by
  unfold sascCheck at h
  by_cases h1 : a.beta < 0 ∨ 1 < a.beta
  · rw [if_pos h1] at h; exact absurd h (by simp)
  rw [if_neg h1] at h
  by_cases h2 : a.elA < 0 ∨ a.elB < 0 ∨ a.elG < 0
  · rw [if_pos h2] at h; exact absurd h (by simp)
  rw [if_neg h2] at h
  by_cases h3 : ¬ ratIsInt a.k = true ∨ a.k < 0
  · rw [if_pos h3] at h; exact absurd h (by simp)
  rw [if_neg h3] at h
  by_cases h4 : ¬ ratIsInt a.maxDeletions = true ∨ a.maxDeletions < 0
  · rw [if_pos h4] at h; exact absurd h (by simp)
  rw [if_neg h4] at h
  by_cases h5 : ¬ ratIsInt a.repetitions = true ∨ a.repetitions < 1
  · rw [if_pos h5] at h; exact absurd h (by simp)
  rw [if_neg h5] at h
  by_cases h6 : a.startTemp < 0
  · rw [if_pos h6] at h; exact absurd h (by simp)
  rw [if_neg h6] at h
  by_cases h7 : a.coolingRate ≤ 0
  · rw [if_pos h7] at h; exact absurd h (by simp)
  rw [if_neg h7] at h
  by_cases h8 : ¬ ratIsInt a.cores = true ∨ a.cores < 1
  · rw [if_pos h8] at h; exact absurd h (by simp)
  rw [if_neg h8] at h
  by_cases h9 : (broadcastFL a.alphas a.M).length ≠ a.M
  · rw [if_pos h9] at h; exact absurd h (by simp)
  rw [if_neg h9] at h
  by_cases h10 : (broadcastFL a.gammas a.M).length ≠ a.M
  · rw [if_pos h10] at h; exact absurd h (by simp)
  rw [if_neg h10] at h
  by_cases h11 : (broadcastFL a.alphas a.M).any (fun x => decide (x < 0 ∨ 1 < x)) = true
  · rw [if_pos h11] at h; exact absurd h (by simp)
  rw [if_neg h11] at h
  by_cases h12 : (broadcastFL a.gammas a.M).any (fun x => decide (x < 0 ∨ 1 < x)) = true
  · rw [if_pos h12] at h; exact absurd h (by simp)
  simp only [List.any_eq_true, decide_eq_true_eq] at h11 h12
  push_neg at h1 h2 h3 h4 h5 h6 h7 h8 h9 h10 h11 h12
  exact ⟨h1, ⟨h3.1, h3.2⟩, ⟨h4.1, h4.2⟩, ⟨h5.1, h5.2⟩,
    h7, ⟨h8.1, h8.2⟩, h9, h10, h11, h12⟩

/-- C7: the `sasc` entry point validates its inputs before the core is
invoked and raises `ValueError` - the C `compute` is never reached - for
every input with `beta` outside `[0, 1]`, some per-mutation alpha or gamma
outside `[0, 1]`, a negative or non-integral `k` or `max_deletions`, a
`repetitions` that is not a positive integer, a non-positive
`cooling_rate`, a `cores` that is not a positive integer, or an alphas or
gammas list whose length differs from `M`. -/
theorem sasc_validates_before_compute (a : SascArgs)
    (h : (a.beta < 0 ∨ 1 < a.beta)
       ∨ (∃ x ∈ broadcastFL a.alphas a.M, x < 0 ∨ 1 < x)
       ∨ (∃ x ∈ broadcastFL a.gammas a.M, x < 0 ∨ 1 < x)
       ∨ (a.k < 0 ∨ ratIsInt a.k = false)
       ∨ (a.maxDeletions < 0 ∨ ratIsInt a.maxDeletions = false)
       ∨ (a.repetitions < 1 ∨ ratIsInt a.repetitions = false)
       ∨ a.coolingRate ≤ 0
       ∨ (a.cores < 1 ∨ ratIsInt a.cores = false)
       ∨ (∃ xs, a.alphas = FloatList.list xs ∧ xs.length ≠ a.M)
       ∨ (∃ xs, a.gammas = FloatList.list xs ∧ xs.length ≠ a.M)) :
    ∃ e, sascRun a = Except.error e := by
  cases hc : sascCheck a with
  | some e =>
      refine ⟨e, ?_⟩
      unfold sascRun
      rw [hc]
  | none =>
      exfalso
      obtain ⟨g1, g2, g3, g4, g5, g6, g7, g8, g9, g10⟩ := sascCheck_none_sound hc
      rcases h with h | h | h | h | h | h | h | h | h | h
      · rcases h with h | h
        · exact absurd g1.1 (not_le.mpr h)
        · exact absurd g1.2 (not_le.mpr h)
      · obtain ⟨x, hx, hr⟩ := h
        rcases hr with hr | hr
        · exact absurd (g9 x hx).1 (not_le.mpr hr)
        · exact absurd (g9 x hx).2 (not_le.mpr hr)
      · obtain ⟨x, hx, hr⟩ := h
        rcases hr with hr | hr
        · exact absurd (g10 x hx).1 (not_le.mpr hr)
        · exact absurd (g10 x hx).2 (not_le.mpr hr)
      · rcases h with h | h
        · exact absurd g2.2 (not_le.mpr h)
        · rw [g2.1] at h
          exact absurd h (by simp)
      · rcases h with h | h
        · exact absurd g3.2 (not_le.mpr h)
        · rw [g3.1] at h
          exact absurd h (by simp)
      · rcases h with h | h
        · exact absurd g4.2 (not_le.mpr h)
        · rw [g4.1] at h
          exact absurd h (by simp)
      · exact absurd g5 (not_lt.mpr h)
      · rcases h with h | h
        · exact absurd g6.2 (not_le.mpr h)
        · rw [g6.1] at h
          exact absurd h (by simp)
      · obtain ⟨xs, hxs, hlen⟩ := h
        rw [hxs] at g7
        exact hlen g7
      · obtain ⟨xs, hxs, hlen⟩ := h
        rw [hxs] at g8
        exact hlen g8

/-- C7 witness: the theorem applied to the concrete invalid call with
`beta = 2`. -/
theorem sasc_validates_before_compute_witness :
    ((aExBad.beta < 0 ∨ 1 < aExBad.beta)
       ∨ (∃ x ∈ broadcastFL aExBad.alphas aExBad.M, x < 0 ∨ 1 < x)
       ∨ (∃ x ∈ broadcastFL aExBad.gammas aExBad.M, x < 0 ∨ 1 < x)
       ∨ (aExBad.k < 0 ∨ ratIsInt aExBad.k = false)
       ∨ (aExBad.maxDeletions < 0 ∨ ratIsInt aExBad.maxDeletions = false)
       ∨ (aExBad.repetitions < 1 ∨ ratIsInt aExBad.repetitions = false)
       ∨ aExBad.coolingRate ≤ 0
       ∨ (aExBad.cores < 1 ∨ ratIsInt aExBad.cores = false)
       ∨ (∃ xs, aExBad.alphas = FloatList.list xs ∧ xs.length ≠ aExBad.M)
       ∨ (∃ xs, aExBad.gammas = FloatList.list xs ∧ xs.length ≠ aExBad.M))
    ∧ ∃ e, sascRun aExBad = Except.error e := by
  have hb : (1 : ℚ) < aExBad.beta := by decide
  exact ⟨Or.inl (Or.inr hb),
    sasc_validates_before_compute aExBad (Or.inl (Or.inr hb))⟩

/-- C9 counterexample: an all-defaults `sasc` call with the required
argument `k = 0` passes validation, but the core then receives
`max_deletions = 0`, not the defaulted `INT_MAX = 2147483647`: the
`k`/`max_deletions` coupling of _sasc.pyx lines 176-178 rewrites the
default before the core is invoked. -/
theorem sasc_default_max_deletions_rewritten :
    sascRun (sascDefaultArgs 1 1 (FloatList.scalar 1) 1 0) = Except.ok cExDef0 ∧
    cExDef0.maxDeletions = 0 ∧ cExDef0.maxDeletions ≠ 2147483647 := by
  have hchk : sascCheck (sascDefaultArgs 1 1 (FloatList.scalar 1) 1 0) = none := by
    unfold sascCheck sascDefaultArgs
    norm_num [ratIsInt, broadcastFL]
  have hrun : sascRun (sascDefaultArgs 1 1 (FloatList.scalar 1) 1 0)
      = Except.ok cExDef0 := by
    unfold sascRun cExDef0
    rw [hchk]
  refine ⟨hrun, ?_, ?_⟩
  · rfl
  · decide

/-- C9 amended: in a `sasc` call with every optional parameter left at its
default, the core receives `repetitions = 5`, `start_temp = 10000`,
`cooling_rate = 0.01`, `cores = 1`, all three error-learning variances 0
(learning disabled) and `monoclonal = false`; the defaulted
`max_deletions = INT_MAX = 2147483647` reaches the core unchanged whenever
`k ≠ 0`, while for `k = 0` the `k`/`max_deletions` zero coupling rewrites
it to 0 before the core is invoked. -/
theorem sasc_default_parameter_values (N M : Nat) (alphas : FloatList)
    (beta k : ℚ) (c : CoreArgs)
    (hok : sascRun (sascDefaultArgs N M alphas beta k) = Except.ok c) :
    c.maxDeletions = (if k = 0 then 0 else 2147483647) ∧ c.repetitions = 5 ∧
    c.startTemp = 10000 ∧ c.coolingRate = 1 / 100 ∧ c.cores = 1 ∧
    c.elA = 0 ∧ c.elB = 0 ∧ c.elG = 0 ∧ c.monoclonal = false := by
  have hc := sascRun_ok hok
  subst hc
  refine ⟨?_, ?_, rfl, rfl, ?_, rfl, rfl, rfl, rfl⟩
  · show ratTrunc (if k = 0 ∨ (2147483647 : ℚ) = 0 then (0 : ℚ) else 2147483647)
      = (if k = 0 then 0 else 2147483647)
    by_cases hk : k = 0
    · rw [if_pos (Or.inl hk), if_pos hk]
      rfl
    · have hnot : ¬(k = 0 ∨ (2147483647 : ℚ) = 0) := by
        push_neg
        exact ⟨hk, by norm_num⟩
      rw [if_neg hnot, if_neg hk]
      norm_num [ratTrunc]
  · show ratTrunc (5 : ℚ) = 5
    norm_num [ratTrunc]
  · show ratTrunc (1 : ℚ) = 1
    norm_num [ratTrunc]

/-- C9 amended witness: the amended theorem applied to a concrete
all-defaults call with `k = 1`. -/
theorem sasc_default_parameter_values_witness :
    sascRun (sascDefaultArgs 1 1 (FloatList.scalar 1) 1 1) = Except.ok cExDef ∧
    (cExDef.maxDeletions = (if (1 : ℚ) = 0 then 0 else 2147483647) ∧
     cExDef.repetitions = 5 ∧ cExDef.startTemp = 10000 ∧
     cExDef.coolingRate = 1 / 100 ∧ cExDef.cores = 1 ∧ cExDef.elA = 0 ∧
     cExDef.elB = 0 ∧ cExDef.elG = 0 ∧ cExDef.monoclonal = false) := by
  have hchk : sascCheck (sascDefaultArgs 1 1 (FloatList.scalar 1) 1 1) = none := by
    unfold sascCheck sascDefaultArgs
    norm_num [ratIsInt, broadcastFL]
  have hrun : sascRun (sascDefaultArgs 1 1 (FloatList.scalar 1) 1 1)
      = Except.ok cExDef := by
    unfold sascRun cExDef
    rw [hchk]
  exact ⟨hrun,
    sasc_default_parameter_values 1 1 (FloatList.scalar 1) 1 1 cExDef hrun⟩

/-- C10: for every `sasc` call with `k = 0` or `max_deletions = 0` that
reaches the core, the core receives both `k = 0` and `max_deletions = 0`,
so the two zero settings are interchangeable at the core boundary. -/
theorem k_and_max_deletions_zero_coupled (a : SascArgs)
    (h : a.k = 0 ∨ a.maxDeletions = 0) (c : CoreArgs)
    (hok : sascRun a = Except.ok c) :
    c.k = 0 ∧ c.maxDeletions = 0 := by
  have hc := sascRun_ok hok
  subst hc
  exact coreOf_zero_coupling h

/-- C10 witness: the theorem applied to the concrete call with `k = 3`
and `max_deletions = 0`. -/
theorem k_and_max_deletions_zero_coupled_witness :
    (aExC10.k = 0 ∨ aExC10.maxDeletions = 0) ∧
    sascRun aExC10 = Except.ok cExC10 ∧
    (cExC10.k = 0 ∧ cExC10.maxDeletions = 0) := by
  have hrun : sascRun aExC10 = Except.ok cExC10 := rfl
  exact ⟨Or.inr rfl, hrun,
    k_and_max_deletions_zero_coupled aExC10 (Or.inr rfl) cExC10 hrun⟩

end PlasticSasc
